import Mathlib

/-!
# Verification of the proman step-runner and widget layer

Shallow embedding of the proman sources:
* `src/widgets/stateful_list.rs` — the `StatefulList` widget;
* `src/config/parser.rs` — the profile model (`LanguageConfig`), catalog
  loading (`parse_language_configs`), and the step runner
  (`LanguageConfigRunner::start_or_continue` with its spawned thread);
* `src/main.rs` — event handling for the application state machine.

Rust `usize` arithmetic is modelled explicitly: `saturating_add` and
`wrapping_sub` by their arithmetic definitions over `Nat`, and plain `-`
(which panics on underflow in debug builds) by an `Option` result where
`none` marks the underflow panic.
-/

namespace Proman

/-- The width bound of `usize`: `2 ^ 64 - 1`. -/
def usizeMax : Nat := 2 ^ 64 - 1

/-! ## Data model (`src/config/parser.rs`) -/

/-- Rust `ProjectType` from `parser.rs`: `Binary`, `Library`, `Workspace`,
declared in that order (the derived `Ord` follows declaration order). -/
inductive ProjectType
  | binary
  | library
  | workspace
deriving DecidableEq, Repr

/-- Encoding of `ProjectType` into `Nat` following the Rust derived `Ord`
(variant declaration order). -/
def ProjectType.toNat : ProjectType → Nat
  | .binary => 0
  | .library => 1
  | .workspace => 2

/-- Rust `CommandType` from `parser.rs`: `PromptProjectType`, `PromptProjectName`,
`Command(String, String)` (serialized as `ShellCommand`). -/
inductive CommandType
  | promptProjectType
  | promptProjectName
  | command (program arguments : String)
deriving DecidableEq, Repr

/-- Rust `CommandStep` from `parser.rs`: a display name plus a typed command. -/
structure CommandStep where
  name : String
  command : CommandType
deriving DecidableEq, Repr

/-- Rust `LanguageConfig` from `parser.rs`. The `BTreeSet<ProjectType>` field is
modelled as the sorted list of its elements. -/
structure LanguageConfig where
  language : String
  requirements : List String
  projectTypes : List ProjectType
  commandSteps : List CommandStep
deriving DecidableEq, Repr

/-! ## StatefulList (`src/widgets/stateful_list.rs`)

The `items: BTreeSet<ListItem>` field is modelled as the sorted list of its
elements; `list_state` is pure presentation (it mirrors `selected_index`)
and is omitted. -/

/-- Rust `StatefulList` from `stateful_list.rs`: backing collection plus the
selection cursor `selected_index: usize`. -/
@[ext]
structure StatefulList (α : Type) where
  items : List α
  selectedIndex : Nat
deriving DecidableEq, Repr

/-- Rust `StatefulList::new`: cursor starts at 0. -/
def StatefulList.new (items : List α) : StatefulList α :=
  { items := items, selectedIndex := 0 }

/-- Rust `StatefulList::next_item`:
`if selected_index.saturating_add(1) >= items.len() { 0 } else { +1 }`. -/
def StatefulList.nextItem (l : StatefulList α) : StatefulList α :=
  if min (l.selectedIndex + 1) usizeMax ≥ l.items.length then
    { l with selectedIndex := 0 }
  else
    { l with selectedIndex := l.selectedIndex + 1 }

/-- Rust `StatefulList::previous_item`:
`if selected_index.wrapping_sub(1) == usize::MAX { items.len() - 1 } else { -1 }`.
The `items.len() - 1` subtraction underflows when the list is empty, which
panics in debug builds; the panic is modelled as `none`. -/
def StatefulList.previousItem (l : StatefulList α) : Option (StatefulList α) :=
  if (l.selectedIndex + usizeMax) % (usizeMax + 1) = usizeMax then
    if l.items.length = 0 then
      none
    else
      some { l with selectedIndex := l.items.length - 1 }
  else
    some { l with selectedIndex := l.selectedIndex - 1 }

/-- Rust `StatefulList::set_items`:
`if items.len() < self.items.len() { selected_index = items.len() - 1 }`,
then the backing collection is replaced. The subtraction underflows when
the replacement is empty (and the old collection was not), which panics in
debug builds; the panic is modelled as `none`. -/
def StatefulList.setItems (l : StatefulList α) (newItems : List α) :
    Option (StatefulList α) :=
  if newItems.length < l.items.length then
    if newItems.length = 0 then
      none
    else
      some { items := newItems, selectedIndex := newItems.length - 1 }
  else
    some { l with items := newItems }

/-- Rust `StatefulList::get_selected_index`. -/
def StatefulList.getSelectedIndex (l : StatefulList α) : Nat :=
  l.selectedIndex

/-! ## Lemmas about StatefulList -/

theorem nextItem_items (l : StatefulList α) : l.nextItem.items = l.items := by
  unfold StatefulList.nextItem
  split <;> rfl

theorem nextItem_selectedIndex (l : StatefulList α)
    (hn : l.items.length ≤ usizeMax) (hi : l.selectedIndex < l.items.length) :
    l.nextItem.selectedIndex = (l.selectedIndex + 1) % l.items.length := by
  have hmin : min (l.selectedIndex + 1) usizeMax = l.selectedIndex + 1 := by
    have : l.selectedIndex + 1 ≤ usizeMax := le_trans hi hn
    omega
  unfold StatefulList.nextItem
  rw [hmin]
  split
  · have h1 : l.selectedIndex + 1 = l.items.length := by omega
    simp [h1]
  · have h2 : l.selectedIndex + 1 < l.items.length := by omega
    simp [Nat.mod_eq_of_lt h2]

theorem nextItem_iterate (l : StatefulList α)
    (hn : l.items.length ≤ usizeMax) (hi : l.selectedIndex < l.items.length) :
    ∀ k : Nat, (StatefulList.nextItem)^[k] l =
      { l with selectedIndex := (l.selectedIndex + k) % l.items.length } := by
  intro k
  induction k with
  | zero =>
    simp [Nat.mod_eq_of_lt hi]
  | succ k ih =>
    rw [Function.iterate_succ_apply', ih]
    have hlen : (0 : Nat) < l.items.length := by omega
    have hi' : (l.selectedIndex + k) % l.items.length < l.items.length :=
      Nat.mod_lt _ hlen
    have h1 : ({ l with selectedIndex := (l.selectedIndex + k) % l.items.length } :
        StatefulList α).items = l.items := rfl
    have h2 := nextItem_selectedIndex
      { l with selectedIndex := (l.selectedIndex + k) % l.items.length }
      (by rw [h1]; exact hn) (by rw [h1]; exact hi')
    have h3 := nextItem_items
      ({ l with selectedIndex := (l.selectedIndex + k) % l.items.length } :
        StatefulList α)
    apply StatefulList.ext
    · rw [h3]
    · rw [h2]
      show ((l.selectedIndex + k) % l.items.length + 1) % l.items.length =
        (l.selectedIndex + (k + 1)) % l.items.length
      rw [Nat.mod_add_mod, Nat.add_assoc]

/-- C4. The empty-list behavior, as the code has it: `next_item` on the
empty list is a fixed point at cursor 0, but `previous_item` on the empty
list computes `0usize - 1` via `items.len() - 1`, which panics in debug
builds (modelled as `none`); the claim that neither call panics fails. -/
theorem c4_empty_list_previous_panics :
    (StatefulList.new ([] : List ProjectType)).nextItem =
      StatefulList.new ([] : List ProjectType) ∧
    (StatefulList.new ([] : List ProjectType)).previousItem = none := by
  constructor <;> rfl

/-- C8 counterexample. Replacing the items of a two-element list with the
empty collection is a strictly smaller replacement, yet `set_items` does
not set the cursor to `new_len - 1`: the `usize` subtraction `0 - 1`
underflows and panics (modelled as `none`), so no result is produced at
all. -/
theorem c8_counterexample_empty_replacement :
    (StatefulList.new [ProjectType.binary, ProjectType.library]).setItems [] =
      none := by
  rfl

/-- C8 (amended). For every replacement that is strictly smaller but
nonempty, `set_items` sets the cursor to `new_len - 1`, which is never past
the end of the new collection; for replacements of equal or larger size the
cursor (and everything except the backing collection) is unchanged; for an
empty replacement of a nonempty collection the cursor subtraction
underflows and the call panics in debug builds (modelled as `none`). -/
theorem c8_set_items_shrink_clamp (l : StatefulList α) (newItems : List α) :
    (newItems.length < l.items.length → 0 < newItems.length →
      l.setItems newItems =
        some { items := newItems, selectedIndex := newItems.length - 1 } ∧
      newItems.length - 1 < newItems.length) ∧
    (l.items.length ≤ newItems.length →
      l.setItems newItems = some { l with items := newItems }) ∧
    (newItems = [] → l.items ≠ [] → l.setItems newItems = none) := by
  refine ⟨fun hlt hpos => ⟨?_, by omega⟩, fun hge => ?_, fun he hne => ?_⟩
  · unfold StatefulList.setItems
    rw [if_pos hlt, if_neg (by omega)]
  · unfold StatefulList.setItems
    rw [if_neg (by omega)]
  · subst he
    unfold StatefulList.setItems
    have hlen : 0 < l.items.length := by
      cases hl : l.items with
      | nil => exact absurd hl hne
      | cons a t => simp [hl]
    rw [if_pos (by simpa using hlen)]
    rfl

/-- C8 witness: the amended statement applied to the concrete list
`[binary, library, workspace]` with cursor 0 and replacement `[binary]`. -/
theorem c8_set_items_shrink_clamp_witness :
    (StatefulList.new [ProjectType.binary, ProjectType.library,
        ProjectType.workspace]).setItems [ProjectType.binary] =
      some { items := [ProjectType.binary], selectedIndex := 0 } := by
  have h := (c8_set_items_shrink_clamp
    (StatefulList.new [ProjectType.binary, ProjectType.library,
      ProjectType.workspace]) [ProjectType.binary]).1
    (by decide) (by decide)
  simpa using h.1

/-- C9. Wraparound: for a list of `n ≥ 1` items (with `n` within `usize`
range) and a valid starting cursor, calling `next_item` `n` times returns
the cursor to its starting position, and calling `previous_item` at cursor
0 moves the cursor to `n - 1` (and never panics). -/
theorem c9_list_wraparound (l : StatefulList α)
    (hn : 1 ≤ l.items.length) (hmax : l.items.length ≤ usizeMax)
    (hi : l.selectedIndex < l.items.length) :
    (StatefulList.nextItem)^[l.items.length] l = l ∧
    (l.selectedIndex = 0 →
      l.previousItem = some { l with selectedIndex := l.items.length - 1 }) := by
  constructor
  · rw [nextItem_iterate l hmax hi l.items.length]
    have : (l.selectedIndex + l.items.length) % l.items.length =
        l.selectedIndex := by
      rw [Nat.add_mod_right]
      exact Nat.mod_eq_of_lt hi
    rw [this]
  · intro h0
    unfold StatefulList.previousItem
    rw [h0]
    rw [if_pos (by rw [Nat.zero_add, Nat.mod_eq_of_lt (by unfold usizeMax; omega)]),
      if_neg (by omega)]

/-- C9 witness: wraparound on the concrete three-element list starting at
cursor 0: three `next_item` calls return to cursor 0, and `previous_item`
moves cursor 0 to 2. -/
theorem c9_list_wraparound_witness :
    (StatefulList.nextItem)^[3]
        (StatefulList.new [ProjectType.binary, ProjectType.library,
          ProjectType.workspace]) =
      StatefulList.new [ProjectType.binary, ProjectType.library,
        ProjectType.workspace] ∧
    (StatefulList.new [ProjectType.binary, ProjectType.library,
        ProjectType.workspace]).previousItem =
      some { items := [ProjectType.binary, ProjectType.library,
        ProjectType.workspace], selectedIndex := 2 } := by
  have h := c9_list_wraparound
    (StatefulList.new [ProjectType.binary, ProjectType.library,
      ProjectType.workspace])
    (by decide) (by unfold usizeMax; simp [StatefulList.new]) (by decide)
  exact ⟨h.1, h.2 rfl⟩

/-! ## Run events and the background thread (`LanguageConfigRunner::start_or_continue`)

`RunningConfigMessage` from `parser.rs`. In the source,
`PromptForProjectName` and `PromptForProjectType` carry an
`mpsc::Sender` reply channel; replies are modelled by an oracle list of
`Reply` values consumed in order, where `Reply.dropped` models the sender
being dropped without a reply (`recv()` returns `Err` and the thread
continues without writing the shared cell, per the `if let Ok(..)`
pattern in the source). -/

/-- Rust `RunningConfigMessage` from `parser.rs` (reply channels omitted; see
the section comment). -/
inductive RunningConfigMessage
  | setCommandStepText (text : String)
  | startInputPrompt
  | startChoicePrompt
  | promptForProjectName
  | promptForProjectType (availableTypes : List ProjectType)
  | commandOutput (output : String)
  | noOp
deriving DecidableEq, Repr

/-- Outcome of one `recv()` on the reply channel of a prompt: either a value was
sent, or every sender was dropped and `recv()` returned `Err`. -/
inductive Reply (α : Type)
  | reply (v : α)
  | dropped
deriving DecidableEq, Repr

/-- One observable action of the background thread: a `broadcast` of an
event paired with its terminal flag, or a write to one of the shared
cells (`project_name` / `project_type`). -/
inductive ThreadAction
  | emit (msg : RunningConfigMessage) (isTerminal : Bool)
  | writeName (v : String)
  | writeType (t : ProjectType)
deriving DecidableEq, Repr

/-- Result of running the background thread: its ordered action trace, the
final contents of the two shared cells, and whether it is blocked on an
unanswered (still-open) reply channel. -/
structure ThreadResult where
  trace : List ThreadAction
  projectName : String
  projectType : ProjectType
  blocked : Bool
deriving DecidableEq, Repr

/-- The background thread spawned by `start_or_continue` (`parser.rs`
lines 223-275), walking the steps in order. For each step it broadcasts
`SetCommandStepText(step.name)`, then dispatches:
* `PromptProjectName`: broadcast `StartInputPrompt` then
  `PromptForProjectName(tx)`; block on `rx.recv()`; on `Ok(name)` write the
  shared name cell (`Err` — dropped sender — continues without a write);
* `PromptProjectType`: broadcast `StartChoicePrompt` then
  `PromptForProjectType` with the full `project_types` set of the runner; block
  on `rx.recv()`; on `Ok(t)` write the shared type cell;
* `Command(program, arguments)`: the match arm in the source is literally `()`
  — nothing is executed and nothing is broadcast.
After the loop it broadcasts `(NoOp, true)`, the only terminal event.
`nameReplies` / `typeReplies` are the reply oracles; an exhausted oracle
means nobody ever answers or drops the channel, so the thread blocks. -/
def runSteps : List CommandStep → List (Reply String) → List (Reply ProjectType) →
    List ProjectType → String → ProjectType → ThreadResult
  | [], _, _, _, nm, tp => ⟨[.emit .noOp true], nm, tp, false⟩
  | step :: rest, nameReplies, typeReplies, av, nm, tp =>
    let started := ThreadAction.emit (.setCommandStepText step.name) false
    match step.command with
    | .promptProjectName =>
      let pre := [started, .emit .startInputPrompt false,
        .emit .promptForProjectName false]
      match nameReplies with
      | [] => ⟨pre, nm, tp, true⟩
      | .reply v :: nr =>
        let r := runSteps rest nr typeReplies av v tp
        ⟨pre ++ .writeName v :: r.trace, r.projectName, r.projectType, r.blocked⟩
      | .dropped :: nr =>
        let r := runSteps rest nr typeReplies av nm tp
        ⟨pre ++ r.trace, r.projectName, r.projectType, r.blocked⟩
    | .promptProjectType =>
      let pre := [started, .emit .startChoicePrompt false,
        .emit (.promptForProjectType av) false]
      match typeReplies with
      | [] => ⟨pre, nm, tp, true⟩
      | .reply t :: tr =>
        let r := runSteps rest nameReplies tr av nm t
        ⟨pre ++ .writeType t :: r.trace, r.projectName, r.projectType, r.blocked⟩
      | .dropped :: tr =>
        let r := runSteps rest nameReplies tr av nm tp
        ⟨pre ++ r.trace, r.projectName, r.projectType, r.blocked⟩
    | .command _ _ =>
      let r := runSteps rest nameReplies typeReplies av nm tp
      ⟨started :: r.trace, r.projectName, r.projectType, r.blocked⟩

/-- Is this action a broadcast of a `CommandOutput` event? -/
def isCommandOutput : ThreadAction → Bool
  | .emit (.commandOutput _) _ => true
  | _ => false

/-- Is this action a write to the shared project-name cell? -/
def isWriteName : ThreadAction → Bool
  | .writeName _ => true
  | _ => false

/-! ## Runner lifecycle (`LanguageConfigRunner`)

The `Bus`/`add_rx` primitives of the `bus` crate are external; a bus is modelled by an
identity, and a subscription by the bus identity plus the number of events
already broadcast on it at subscription time (`add_rx` only delivers
events broadcast after it is called, so `startIndex` is the count of
events the subscription will never see). -/

/-- A handle to one `Bus` allocation, identified by `id`. -/
structure BusHandle where
  id : Nat
deriving DecidableEq, Repr

/-- A `BusReader` obtained from `add_rx`: it reads events of bus `busId`
starting from position `startIndex` (earlier events are not replayed). -/
structure Subscription where
  busId : Nat
  startIndex : Nat
deriving DecidableEq, Repr

/-- Rust `RunnerError` from `parser.rs`: the only runner-level error. -/
inductive RunnerError
  | alreadyStartedButNoBus
deriving DecidableEq, Repr

/-- Rust `LanguageConfigRunner` from `parser.rs`: cloned steps, supported
project types, the two shared cells, the started flag and the optional
bus handle. -/
structure LanguageConfigRunner where
  commands : List CommandStep
  projectTypes : List ProjectType
  projectName : String
  projectType : ProjectType
  hasStarted : Bool
  commandBus : Option BusHandle
deriving DecidableEq, Repr

/-- Rust `LanguageConfigRunner::new`: pure construction, not started, no bus,
cells initialised to `String::new()` and `ProjectType::default()`
(`Binary`). -/
def LanguageConfigRunner.new (commands : List CommandStep)
    (projectTypes : List ProjectType) : LanguageConfigRunner :=
  ⟨commands, projectTypes, "", .binary, false, none⟩

/-- Everything one call to `start_or_continue` produces: the returned
result, the runner afterwards, and whether `thread::spawn` was called. -/
structure StartOutcome where
  result : Except RunnerError Subscription
  runner : LanguageConfigRunner
  spawned : Bool

/-- Rust `LanguageConfigRunner::start_or_continue` (`parser.rs` lines 198-278):
* if the bus exists and the runner has started: `add_rx` on the same bus
  (a fresh subscription starting at the current event count), no spawn;
* else if the runner has started (bus lost): `Err(AlreadyStartedButNoBus)`;
* else: mark started, create a fresh bus (capacity 4096), take the first
  subscription (before any event, hence `startIndex = 0`), spawn the
  background thread once, store the bus.
`freshBusId` names the bus a spawn would allocate; `busEventCount` is the
number of events broadcast so far on the existing bus. -/
def LanguageConfigRunner.startOrContinue (r : LanguageConfigRunner)
    (freshBusId busEventCount : Nat) : StartOutcome :=
  match r.commandBus, r.hasStarted with
  | some bus, true => ⟨.ok ⟨bus.id, busEventCount⟩, r, false⟩
  | _, _ =>
    if r.hasStarted then
      ⟨.error .alreadyStartedButNoBus, r, false⟩
    else
      ⟨.ok ⟨freshBusId, 0⟩,
        { r with hasStarted := true, commandBus := some ⟨freshBusId⟩ }, true⟩

/-- Run a sequence of `start_or_continue` calls (each given a fresh bus id
and the current bus event count) and count how many spawned the background
thread. -/
def runnerCallSequence (r : LanguageConfigRunner) :
    List (Nat × Nat) → LanguageConfigRunner × Nat
  | [] => (r, 0)
  | (fid, cnt) :: rest =>
    let o := r.startOrContinue fid cnt
    let p := runnerCallSequence o.runner rest
    (p.1, (if o.spawned then 1 else 0) + p.2)

/-! ## Application event handling (`src/main.rs`) -/

/-- The key presses `main.rs` distinguishes (crossterm `KeyCode` values
matched by the handlers; everything else is `other`). -/
inductive KeyCode
  | char (c : Char)
  | esc
  | enter
  | up
  | down
  | other
deriving DecidableEq, Repr

/-- Rust `InputMode` from `main.rs`. -/
inductive InputMode
  | none
  | text
  | choice
deriving DecidableEq, Repr

/-- Rust `Message` from `main.rs`. -/
inductive Message
  | shouldQuit
  | runConfiguration (idx : Nat)
  | noOp
deriving DecidableEq, Repr

/-- Rust `RunningState` from `main.rs` (the stored `running_config_message`
field is modelled by whether a choice prompt message was stashed; `ui`
never assigns it, so it keeps its `Default` value `NoOp` — here it is kept
as the message itself for faithfulness). -/
structure RunningState where
  stepName : String
  scrollBack : List String
  inputMode : InputMode
  input : String
  projectTypeList : Option (StatefulList ProjectType)
  selectedProjectType : Option ProjectType
  runningConfigMessage : RunningConfigMessage
deriving DecidableEq, Repr

/-- The `RunningState` value `ui_running` builds when none exists yet:
`Default::default()` except `project_type_list` is `Some` of an empty
list. -/
def RunningState.fresh : RunningState :=
  { stepName := "", scrollBack := [], inputMode := .none, input := "",
    projectTypeList := some (StatefulList.new []),
    selectedProjectType := Option.none,
    runningConfigMessage := .noOp }

/-- The per-event state fold of `ui_running` (`main.rs` lines 274-303),
with rendering calls omitted. `none` models a panic: the
`.expect("should be populated by this point")` on a missing list, or the
`set_items` underflow. `PromptForProjectType` with more than one option
populates the choice list; with at most one option it stores
`available_types.first()` directly into `selected_project_type`.
the `PromptForProjectName` arm is an empty stub (the reply sender is
dropped). -/
def foldMessage (state : RunningState) (msg : RunningConfigMessage) :
    Option RunningState :=
  match msg with
  | .setCommandStepText text => some { state with stepName := text }
  | .commandOutput output =>
    some { state with scrollBack := state.scrollBack ++ [output] }
  | .startInputPrompt => some { state with inputMode := .text }
  | .startChoicePrompt => some { state with inputMode := .choice }
  | .promptForProjectName => some state
  | .promptForProjectType availableTypes =>
    if availableTypes.length > 1 then
      match state.projectTypeList with
      | some list =>
        (list.setItems availableTypes).map
          (fun newList => { state with projectTypeList := some newList })
      | Option.none => Option.none
    else
      some { state with selectedProjectType := availableTypes.head? }
  | .noOp => some state

/-- Rust `handle_text_input_mode_events` from `main.rs` (lines 124-136). The
third component records what, if anything, is sent on the pending reply
channel: no arm of the source ever sends, so it is always `none`. -/
def handleTextInputModeEvents (keyCode : KeyCode) (state : RunningState) :
    RunningState × Message × Option String :=
  match keyCode with
  | .char c => ({ state with input := state.input.push c }, .noOp, Option.none)
  | .esc => (state, .shouldQuit, Option.none)
  | _ => (state, .noOp, Option.none)

/-! ## Lemmas about the background thread -/

theorem runSteps_no_command_output :
    ∀ (steps : List CommandStep) (nr : List (Reply String))
      (tr : List (Reply ProjectType)) (av : List ProjectType) (nm : String)
      (tp : ProjectType),
      (runSteps steps nr tr av nm tp).trace.filter isCommandOutput = [] := by
  intro steps
  induction steps with
  | nil => intro nr tr av nm tp; rfl
  | cons step rest ih =>
    intro nr tr av nm tp
    cases hc : step.command with
    | promptProjectName =>
      cases nr with
      | nil => simp [runSteps, hc, isCommandOutput]
      | cons h t =>
        cases h with
        | reply v => simp [runSteps, hc, isCommandOutput, ih]
        | dropped => simp [runSteps, hc, isCommandOutput, ih]
    | promptProjectType =>
      cases tr with
      | nil => simp [runSteps, hc, isCommandOutput]
      | cons h t =>
        cases h with
        | reply v => simp [runSteps, hc, isCommandOutput, ih]
        | dropped => simp [runSteps, hc, isCommandOutput, ih]
    | command p a => simp [runSteps, hc, isCommandOutput, ih]

theorem runSteps_no_name_reply_no_write :
    ∀ (steps : List CommandStep) (tr : List (Reply ProjectType))
      (av : List ProjectType) (nm : String) (tp : ProjectType),
      (runSteps steps [] tr av nm tp).projectName = nm ∧
      (runSteps steps [] tr av nm tp).trace.filter isWriteName = [] := by
  intro steps
  induction steps with
  | nil => intro tr av nm tp; exact ⟨rfl, rfl⟩
  | cons step rest ih =>
    intro tr av nm tp
    cases hc : step.command with
    | promptProjectName => simp [runSteps, hc, isWriteName]
    | promptProjectType =>
      cases tr with
      | nil => simp [runSteps, hc, isWriteName]
      | cons h t =>
        cases h with
        | reply v => simp [runSteps, hc, isWriteName, ih]
        | dropped => simp [runSteps, hc, isWriteName, ih]
    | command p a => simp [runSteps, hc, isWriteName, ih]

/-- C1. What the code actually does for shell-command steps: on the
own example profile (step A echoing x, then step B echoing y) the
thread broadcasts `StepStarted("A")`, `StepStarted("B")` and the terminal
event, and nothing else — the `CommandType::Command` match arm is the
empty expression `()`, so no command runs and no `CommandOutput` event is
ever broadcast, on this or any other input. -/
theorem c1_command_arm_broadcasts_no_output :
    (runSteps [⟨"A", .command ("echo") ("x")⟩, ⟨"B", .command ("echo") ("y")⟩]
        [] [] [ProjectType.binary] "" .binary).trace =
      [.emit (.setCommandStepText ("A")) false,
       .emit (.setCommandStepText ("B")) false,
       .emit .noOp true] ∧
    ∀ (steps : List CommandStep) (nr : List (Reply String))
      (tr : List (Reply ProjectType)) (av : List ProjectType) (nm : String)
      (tp : ProjectType),
      (runSteps steps nr tr av nm tp).trace.filter isCommandOutput = [] :=
  ⟨rfl, runSteps_no_command_output⟩

/-- C2 counterexample. For a `PromptProjectType` step whose option set is
the single element `{Library}`, the background thread still broadcasts the
choice-request event (`PromptForProjectType` with the full option set) and
then blocks waiting for a reply — the claim said no choice-request event
is broadcast and no reply round-trip happens. -/
theorem c2_counterexample_singleton_choice_broadcasts :
    ThreadAction.emit (.promptForProjectType [ProjectType.library]) false ∈
      (runSteps [⟨"S", .promptProjectType⟩] [] [] [ProjectType.library]
        "" .binary).trace ∧
    (runSteps [⟨"S", .promptProjectType⟩] [] [] [ProjectType.library]
      "" .binary).blocked = true := by
  constructor
  · simp [runSteps]
  · rfl

/-- C2 (amended). For every option set `av`, of any size, the background
thread broadcasts the choice-request event carrying the full set and then
blocks for a reply; the at-most-one-option resolution happens on the
consumer side: `ui_running`, on receiving a choice request whose option
set is empty or a singleton (the two shapes of a set with at most one
member, covered exhaustively below), stores the head of that set —
`some t` for the singleton `[t]`, nothing for the empty set — directly
into its own `selected_project_type` view state, leaving the choice list
unpopulated; the shared project-type cell is written only when a reply
arrives on the channel, in which case it receives the replied value. -/
theorem c2_single_option_resolved_by_consumer (nm : String) (t tp : ProjectType)
    (av : List ProjectType) (st : RunningState) :
    (runSteps [⟨nm, .promptProjectType⟩] [] [] av "" tp).trace =
      [.emit (.setCommandStepText nm) false, .emit .startChoicePrompt false,
       .emit (.promptForProjectType av) false] ∧
    (runSteps [⟨nm, .promptProjectType⟩] [] [] av "" tp).blocked = true ∧
    foldMessage st (.promptForProjectType [t]) =
      some { st with selectedProjectType := some t } ∧
    foldMessage st (.promptForProjectType []) =
      some { st with selectedProjectType := Option.none } ∧
    (runSteps [⟨nm, .promptProjectType⟩] [] [.reply t] av "" tp).projectType
      = t ∧
    ThreadAction.writeType t ∈
      (runSteps [⟨nm, .promptProjectType⟩] [] [.reply t] av "" tp).trace := by
  refine ⟨rfl, rfl, ?_, ?_, rfl, ?_⟩
  · simp [foldMessage]
  · simp [foldMessage]
  · simp [runSteps]

/-- C3. `start_or_continue` is idempotent with respect to spawning:
* from a never-started runner it marks the runner started, stores the
  freshly created bus and spawns the background thread, returning the
  pre-spawn subscription (start index 0);
* when already started with the bus present it spawns nothing, leaves the
  runner untouched and returns a new subscription to the same bus that
  only sees events from the current event count onward (no replay);
* when already started with the bus reference gone it returns the
  runner-level error `AlreadyStartedButNoBus` without spawning;
* over any sequence of calls beginning at a fresh runner, exactly one call
  spawns the background thread. -/
theorem c3_start_or_attach_single_spawn (r : LanguageConfigRunner)
    (fid cnt : Nat) :
    (r.hasStarted = false →
      (r.startOrContinue fid cnt).spawned = true ∧
      (r.startOrContinue fid cnt).result = .ok ⟨fid, 0⟩ ∧
      (r.startOrContinue fid cnt).runner.hasStarted = true ∧
      (r.startOrContinue fid cnt).runner.commandBus = some ⟨fid⟩) ∧
    (∀ b : BusHandle, r.commandBus = some b → r.hasStarted = true →
      (r.startOrContinue fid cnt).spawned = false ∧
      (r.startOrContinue fid cnt).runner = r ∧
      (r.startOrContinue fid cnt).result = .ok ⟨b.id, cnt⟩) ∧
    (r.commandBus = none → r.hasStarted = true →
      (r.startOrContinue fid cnt).result = .error .alreadyStartedButNoBus ∧
      (r.startOrContinue fid cnt).spawned = false ∧
      (r.startOrContinue fid cnt).runner = r) ∧
    (∀ calls : List (Nat × Nat), r.hasStarted = false →
      (runnerCallSequence r ((fid, cnt) :: calls)).2 = 1) := by
  refine ⟨fun hs => ?_, fun b hb hs => ?_, fun hb hs => ?_, fun calls hs => ?_⟩
  · cases hcb : r.commandBus with
    | none => simp [LanguageConfigRunner.startOrContinue, hcb, hs]
    | some b => simp [LanguageConfigRunner.startOrContinue, hcb, hs]
  · simp [LanguageConfigRunner.startOrContinue, hb, hs]
  · simp [LanguageConfigRunner.startOrContinue, hb, hs]
  · have hfirst : ∀ fid' cnt',
        (r.startOrContinue fid' cnt').runner.hasStarted = true ∧
        (r.startOrContinue fid' cnt').runner.commandBus = some ⟨fid'⟩ ∧
        (r.startOrContinue fid' cnt').spawned = true := by
      intro fid' cnt'
      cases hcb : r.commandBus with
      | none => simp [LanguageConfigRunner.startOrContinue, hcb, hs]
      | some b => simp [LanguageConfigRunner.startOrContinue, hcb, hs]
    have hrest : ∀ (r' : LanguageConfigRunner) (b : BusHandle),
        r'.commandBus = some b → r'.hasStarted = true →
        ∀ calls' : List (Nat × Nat), runnerCallSequence r' calls' = (r', 0) := by
      intro r' b hb' hs' calls'
      induction calls' with
      | nil => rfl
      | cons c rest ih =>
        obtain ⟨fid', cnt'⟩ := c
        have ho : r'.startOrContinue fid' cnt' = ⟨.ok ⟨b.id, cnt'⟩, r', false⟩ := by
          simp [LanguageConfigRunner.startOrContinue, hb', hs']
        simp [runnerCallSequence, ho, ih]
    obtain ⟨h1, h2, h3⟩ := hfirst fid cnt
    show (runnerCallSequence r ((fid, cnt) :: calls)).2 = 1
    simp only [runnerCallSequence]
    rw [hrest (r.startOrContinue fid cnt).runner ⟨fid⟩ h2 h1 calls, h3]
    simp

/-- C3 witness: the statement applied to a concrete fresh runner with no
steps: the first call spawns, stores bus 7 and returns the start-index-0
subscription; a two-call sequence spawns exactly once; and the second call
(on the started runner) attaches to the same bus 7 at event count 5
without spawning. -/
theorem c3_start_or_attach_single_spawn_witness :
    ((LanguageConfigRunner.new [] []).startOrContinue 7 0).spawned = true ∧
    ((LanguageConfigRunner.new [] []).startOrContinue 7 0).result =
      .ok ⟨7, 0⟩ ∧
    (runnerCallSequence (LanguageConfigRunner.new [] []) [(7, 0), (8, 5)]).2
      = 1 ∧
    ((((LanguageConfigRunner.new [] []).startOrContinue 7 0).runner).startOrContinue
      8 5).result = .ok ⟨7, 5⟩ := by
  have h := c3_start_or_attach_single_spawn (LanguageConfigRunner.new [] []) 7 0
  have h1 := h.1 rfl
  have h4 := h.2.2.2 [(8, 5)] rfl
  have h2 := c3_start_or_attach_single_spawn
    (((LanguageConfigRunner.new [] []).startOrContinue 7 0).runner) 8 5
  exact ⟨h1.1, h1.2.1, h4, (h2.2.1 ⟨7⟩ h1.2.2.2 h1.2.2.1).2.2⟩

/-- C5 counterexample. If the consumer drops the reply channel without
answering (exactly what the empty `PromptForProjectName` arm of `ui_running`
does), `recv()` returns `Err` and the background thread does NOT stay
blocked: the `StepStarted` of the next step is broadcast although no reply was
ever sent, and the shared name cell is never written — refuting the part
of the claim that says the task blocks until a reply is sent on the
provided one-shot reply channel. -/
theorem c5_counterexample_dropped_channel_continues :
    ThreadAction.emit (.setCommandStepText ("C")) false ∈
      (runSteps [⟨"P", .promptProjectName⟩, ⟨"C", .command ("echo") ("hi")⟩]
        [.dropped] [] [] "" .binary).trace ∧
    (runSteps [⟨"P", .promptProjectName⟩, ⟨"C", .command ("echo") ("hi")⟩]
      [.dropped] [] [] "" .binary).projectName = "" ∧
    (runSteps [⟨"P", .promptProjectName⟩, ⟨"C", .command ("echo") ("hi")⟩]
      [.dropped] [] [] "" .binary).trace.filter isWriteName = [] := by
  refine ⟨?_, rfl, rfl⟩
  simp [runSteps]

/-- C5 (amended). For every `PromptProjectName` step: while the reply
channel is open and unanswered the background thread blocks right after
broadcasting the request event (its trace is exactly the three broadcasts
of that step — no `StepStarted` of any subsequent step appears); when a reply
`v` is sent, the thread writes `v` into the shared project-name cell
exactly once, immediately after the request broadcasts, and the cell still
equals `v` when the run completes; if instead the channel is dropped
without a reply, the thread continues to the next step without writing the
cell. -/
theorem c5_prompt_round_trip (nm v nm0 : String) (rest : List CommandStep)
    (tr : List (Reply ProjectType)) (av : List ProjectType) (tp : ProjectType) :
    ((runSteps (⟨nm, .promptProjectName⟩ :: rest) [] tr av nm0 tp).trace =
      [.emit (.setCommandStepText nm) false, .emit .startInputPrompt false,
       .emit .promptForProjectName false] ∧
     (runSteps (⟨nm, .promptProjectName⟩ :: rest) [] tr av nm0 tp).blocked
       = true) ∧
    ((runSteps (⟨nm, .promptProjectName⟩ :: rest) [.reply v] tr av nm0 tp).trace
       = [.emit (.setCommandStepText nm) false, .emit .startInputPrompt false,
          .emit .promptForProjectName false, .writeName v] ++
          (runSteps rest [] tr av v tp).trace ∧
     (runSteps (⟨nm, .promptProjectName⟩ :: rest) [.reply v] tr av nm0
       tp).projectName = v ∧
     (runSteps (⟨nm, .promptProjectName⟩ :: rest) [.reply v] tr av nm0
       tp).trace.filter isWriteName = [.writeName v]) ∧
    ((runSteps (⟨nm, .promptProjectName⟩ :: rest) [.dropped] tr av nm0 tp).trace
       = [.emit (.setCommandStepText nm) false, .emit .startInputPrompt false,
          .emit .promptForProjectName false] ++
          (runSteps rest [] tr av nm0 tp).trace ∧
     (runSteps (⟨nm, .promptProjectName⟩ :: rest) [.dropped] tr av nm0
       tp).trace.filter isWriteName = []) := by
  refine ⟨⟨rfl, rfl⟩, ⟨rfl, ?_, ?_⟩, rfl, ?_⟩
  · show (runSteps rest [] tr av v tp).projectName = v
    exact (runSteps_no_name_reply_no_write rest tr av v tp).1
  · show (([ThreadAction.emit (.setCommandStepText nm) false,
        ThreadAction.emit .startInputPrompt false,
        ThreadAction.emit .promptForProjectName false, ThreadAction.writeName v] ++
        (runSteps rest [] tr av v tp).trace).filter isWriteName) =
      [ThreadAction.writeName v]
    rw [List.filter_append]
    rw [(runSteps_no_name_reply_no_write rest tr av v tp).2]
    rfl
  · show (([ThreadAction.emit (.setCommandStepText nm) false,
        ThreadAction.emit .startInputPrompt false,
        ThreadAction.emit .promptForProjectName false] ++
        (runSteps rest [] tr av nm0 tp).trace).filter isWriteName) = []
    rw [List.filter_append]
    rw [(runSteps_no_name_reply_no_write rest tr av nm0 tp).2]
    rfl

/-- C6. What the text-input handler actually does: a printable-character
key appends the character to the pending input buffer (that half of the
claim holds), but the confirm key (`Enter`) hits the catch-all arm — the
state is returned untouched (the buffer is kept, the input mode does not
return to `None`) and nothing is ever sent on the pending reply channel
(third component). The send-and-reset behavior the claim describes does
not exist in the code; the `PromptForProjectName` arm of `ui_running` is an
empty stub guarded by a TODO comment. -/
theorem c6_text_mode_confirm_is_missing (state : RunningState) (c : Char) :
    handleTextInputModeEvents (.char c) state =
      ({ state with input := state.input.push c }, .noOp, Option.none) ∧
    handleTextInputModeEvents .enter state = (state, .noOp, Option.none) ∧
    (handleTextInputModeEvents .enter state).1.inputMode = state.inputMode ∧
    (handleTextInputModeEvents .enter state).1.input = state.input :=
  ⟨rfl, rfl, rfl, rfl⟩

/-! ## The derived `Ord` of the profile model

Rust `#[derive(Ord)]` compares variants by declaration order and struct
fields lexicographically, field by field; `Vec`s compare lexicographically
element-wise and `String`s byte-wise (UTF-8 byte order equals code-point
order, which is the order on `String` in Lean). Each type is ordered by lifting an
injective encoding into nested lexicographic products. -/

/-- Encoding of `CommandType` following its derived `Ord`: variant index
first, then the `Command` payload fields. -/
def CommandType.enc : CommandType → Lex (Nat × Lex (List Char × List Char))
  | .promptProjectType => toLex (0, toLex ([], []))
  | .promptProjectName => toLex (1, toLex ([], []))
  | .command p a => toLex (2, toLex (p.data, a.data))

theorem commandTypeEnc_injective : Function.Injective CommandType.enc := by
  intro a b h
  cases a <;> cases b <;>
    simp_all [CommandType.enc, Prod.ext_iff, ← String.toList_inj, String.toList]

instance : LinearOrder CommandType :=
  LinearOrder.lift' CommandType.enc commandTypeEnc_injective

/-- Encoding of `CommandStep` following its derived `Ord`: `name` first,
then `command`. -/
def CommandStep.enc (s : CommandStep) : Lex (List Char × CommandType) :=
  toLex (s.name.data, s.command)

theorem commandStepEnc_injective : Function.Injective CommandStep.enc := by
  intro a b h
  cases a
  cases b
  simpa [CommandStep.enc, Prod.ext_iff, CommandStep.mk.injEq,
    ← String.toList_inj, String.toList] using h

instance : LinearOrder CommandStep :=
  LinearOrder.lift' CommandStep.enc commandStepEnc_injective

theorem ProjectType.toNat_injective : Function.Injective ProjectType.toNat := by
  intro a b h
  cases a <;> cases b <;> simp [ProjectType.toNat] at h ⊢

instance : LinearOrder ProjectType :=
  LinearOrder.lift' ProjectType.toNat ProjectType.toNat_injective

/-- Encoding of `LanguageConfig` following its derived `Ord`: `language`
first, then `requirements`, `project_types`, `command_steps`. -/
def LanguageConfig.enc (c : LanguageConfig) :
    Lex (List Char ×
      Lex (List (List Char) × Lex (List ProjectType × List CommandStep))) :=
  toLex (c.language.data,
    toLex (c.requirements.map String.data,
      toLex (c.projectTypes, c.commandSteps)))

theorem languageConfigEnc_injective : Function.Injective LanguageConfig.enc := by
  have hdata : Function.Injective String.data := fun s t h => by
    rw [← String.toList_inj]
    exact h
  intro a b h
  cases a
  cases b
  simp only [LanguageConfig.enc, toLex_inj, Prod.ext_iff] at h
  obtain ⟨h1, h2, h3, h4⟩ := h
  simp only [LanguageConfig.mk.injEq]
  exact ⟨hdata h1, List.map_injective_iff.mpr hdata h2, h3, h4⟩

instance : LinearOrder LanguageConfig :=
  LinearOrder.lift' LanguageConfig.enc languageConfigEnc_injective

/-- A `<` between two configs forces `≤` between their `language` fields:
`language` is the first key of the derived lexicographic order. -/
theorem LanguageConfig.lt_language_le {a b : LanguageConfig} (h : a < b) :
    a.language ≤ b.language := by
  have h' : a.enc < b.enc := h
  rw [String.le_iff_toList_le]
  rcases (Prod.Lex.lt_iff _ _).mp h' with h1 | ⟨h1, _⟩
  · exact le_of_lt h1
  · exact le_of_eq h1

/-! ## The catalog as a `BTreeSet` (`parse_language_configs`) -/

/-- Rust `BTreeSet::insert` on the strictly-sorted-list model of a `BTreeSet`:
place the element by the order; if an equal element is already present the
set is unchanged (`insert` does not replace). -/
def btInsert [LinearOrder α] (a : α) : List α → List α
  | [] => [a]
  | b :: t =>
    if a < b then a :: b :: t
    else if b < a then b :: btInsert a t
    else b :: t

theorem mem_btInsert [LinearOrder α] (x a : α) :
    ∀ s : List α, x ∈ btInsert a s ↔ x = a ∨ x ∈ s := by
  intro s
  induction s with
  | nil => simp [btInsert]
  | cons b t ih =>
    unfold btInsert
    rcases lt_trichotomy a b with h | h | h
    · rw [if_pos h]
      simp
    · subst h
      rw [if_neg (lt_irrefl a), if_neg (lt_irrefl a)]
      simp
    · rw [if_neg (asymm h), if_pos h]
      simp [ih]
      tauto

theorem sorted_btInsert [LinearOrder α] (a : α) :
    ∀ s : List α, s.Sorted (· < ·) → (btInsert a s).Sorted (· < ·) := by
  intro s
  induction s with
  | nil => intro _; simp [btInsert]
  | cons b t ih =>
    intro hs
    rw [List.sorted_cons] at hs
    obtain ⟨hb, ht⟩ := hs
    unfold btInsert
    rcases lt_trichotomy a b with h | h | h
    · rw [if_pos h]
      rw [List.sorted_cons]
      refine ⟨?_, by rw [List.sorted_cons]; exact ⟨hb, ht⟩⟩
      intro x hx
      rcases List.mem_cons.mp hx with rfl | hx
      · exact h
      · exact lt_trans h (hb x hx)
    · rw [if_neg (by simp [h]), if_neg (by simp [h])]
      rw [List.sorted_cons]
      exact ⟨hb, ht⟩
    · rw [if_neg (asymm h), if_pos h]
      rw [List.sorted_cons]
      refine ⟨?_, ih ht⟩
      intro x hx
      rcases (mem_btInsert x a t).mp hx with rfl | hx
      · exact h
      · exact hb x hx

/-- Two strictly sorted lists with the same members are equal. -/
theorem sorted_eq_of_mem_iff [LinearOrder α] :
    ∀ {l1 l2 : List α}, l1.Sorted (· < ·) → l2.Sorted (· < ·) →
      (∀ x, x ∈ l1 ↔ x ∈ l2) → l1 = l2 := by
  intro l1
  induction l1 with
  | nil =>
    intro l2 _ _ hmem
    cases l2 with
    | nil => rfl
    | cons b t => exact absurd ((hmem b).mpr (List.mem_cons_self b t)) (by simp)
  | cons a t1 ih =>
    intro l2 h1 h2 hmem
    cases l2 with
    | nil => exact absurd ((hmem a).mp (List.mem_cons_self a t1)) (by simp)
    | cons b t2 =>
      rw [List.sorted_cons] at h1 h2
      obtain ⟨ha, ht1⟩ := h1
      obtain ⟨hb, ht2⟩ := h2
      have hab : a = b := by
        rcases List.mem_cons.mp ((hmem a).mp (List.mem_cons_self a t1)) with
          h | h
        · exact h
        · rcases List.mem_cons.mp ((hmem b).mpr (List.mem_cons_self b t2)) with
            h' | h'
          · exact h'.symm
          · exact absurd (lt_trans (hb a h) (ha b h')) (lt_irrefl b)
      subst hab
      have htmem : ∀ x, x ∈ t1 ↔ x ∈ t2 := by
        intro x
        constructor
        · intro hx
          rcases List.mem_cons.mp ((hmem x).mp (List.mem_cons_of_mem a hx)) with
            rfl | h'
          · exact absurd (ha x hx) (lt_irrefl x)
          · exact h'
        · intro hx
          rcases List.mem_cons.mp ((hmem x).mpr (List.mem_cons_of_mem a hx)) with
            rfl | h'
          · exact absurd (hb x hx) (lt_irrefl x)
          · exact h'
      rw [ih ht1 ht2 htmem]

/-! ## Catalog loading (`parse_language_configs`)

Filesystem reads and `ron` parsing are external I/O; each source file is
supplied as an oracle value `Option LanguageConfig` — `some c` when its
contents parse to `c`, `none` when parsing fails. I/O-level failures
(unreadable file, non-UTF-8 bytes) take a separate `?`-propagation path in
the source and are outside this model. -/

/-- The `Error` variants of `config/mod.rs` reachable from catalog
parsing. -/
inductive ConfigError
  | couldNotReadDefaultPlugins
  | noConfigurations
deriving DecidableEq, Repr

/-- The loop of `parse_default_language_configs`: insert each parsed
default plugin into the `BTreeSet`; the first parse failure aborts the
whole load with `CouldNotReadDefaultPlugins`. -/
def parseDefaultsAux (acc : List LanguageConfig) :
    List (Option LanguageConfig) → Except ConfigError (List LanguageConfig)
  | [] => .ok acc
  | some c :: rest => parseDefaultsAux (btInsert c acc) rest
  | none :: _ => .error .couldNotReadDefaultPlugins

/-- Rust `parse_default_language_configs` from `parser.rs`. -/
def parseDefaultLanguageConfigs (defaults : List (Option LanguageConfig)) :
    Except ConfigError (List LanguageConfig) :=
  parseDefaultsAux [] defaults

/-- The user-directory loop of `parse_language_configs`: files that parse
are inserted, files that fail to parse are skipped (`continue`). -/
def insertUserFiles (acc : List LanguageConfig)
    (userFiles : List (Option LanguageConfig)) : List LanguageConfig :=
  userFiles.foldl
    (fun s f => match f with | some c => btInsert c s | Option.none => s) acc

/-- Rust `parse_language_configs` from `parser.rs`: parse the bundled defaults
(fatally), fold the files of the user directory on top (skipping failures), and
fail with `NoConfigurations` when the resulting set is empty. -/
def parseLanguageConfigs (defaults userFiles : List (Option LanguageConfig)) :
    Except ConfigError (List LanguageConfig) :=
  match parseDefaultLanguageConfigs defaults with
  | .error e => .error e
  | .ok base =>
    let all := insertUserFiles base userFiles
    if all.isEmpty then .error .noConfigurations else .ok all

/-- The catalog built from a list of successfully parsed profiles, in
enumeration order: fold `BTreeSet::insert` over them. -/
def loadCatalog (profiles : List LanguageConfig) : List LanguageConfig :=
  profiles.foldl (fun s c => btInsert c s) []

/-! ## Lemmas about catalog loading -/

theorem foldl_btInsert_mem [LinearOrder α] :
    ∀ (l acc : List α) (x : α),
      x ∈ l.foldl (fun s c => btInsert c s) acc ↔ x ∈ l ∨ x ∈ acc := by
  intro l
  induction l with
  | nil => simp
  | cons a t ih =>
    intro acc x
    rw [List.foldl_cons, ih (btInsert a acc) x, mem_btInsert]
    simp
    tauto

theorem foldl_btInsert_sorted [LinearOrder α] :
    ∀ (l acc : List α), acc.Sorted (· < ·) →
      (l.foldl (fun s c => btInsert c s) acc).Sorted (· < ·) := by
  intro l
  induction l with
  | nil => intro acc h; exact h
  | cons a t ih =>
    intro acc h
    rw [List.foldl_cons]
    exact ih (btInsert a acc) (sorted_btInsert a acc h)

theorem loadCatalog_mem (l : List LanguageConfig) (x : LanguageConfig) :
    x ∈ loadCatalog l ↔ x ∈ l := by
  unfold loadCatalog
  rw [foldl_btInsert_mem l [] x]
  simp

theorem loadCatalog_sorted (l : List LanguageConfig) :
    (loadCatalog l).Sorted (· < ·) :=
  foldl_btInsert_sorted l [] (by simp)

/-- C7 counterexample. Two parsed profiles sharing the language `"rust"`
but differing in `requirements` both survive catalog loading: the
`BTreeSet` dedups by the full derived `Ord` (all fields), not by the
`language` key alone, so the catalog has two entries of equal language —
refuting the part of the claim that says two parsed profiles with equal
language yield one catalog entry. -/
theorem c7_counterexample_dedup_not_by_language :
    (loadCatalog [⟨"rust", ["cargo"], [], []⟩, ⟨"rust", ["rustup"], [], []⟩]).length
      = 2 ∧
    (⟨"rust", ["cargo"], [], []⟩ : LanguageConfig).language =
      (⟨"rust", ["rustup"], [], []⟩ : LanguageConfig).language := by
  constructor
  · decide
  · rfl

/-- C7 (amended). Catalog loading deduplicates profiles by full structural
equality (the derived `Ord`/`Eq` over all fields), not by the language key
alone; the result contains each distinct parsed profile exactly once, is
strictly sorted by the derived lexicographic order whose first key is
`language` (so languages appear in weakly sorted order, ties broken by the
remaining fields), and is determined by the set of parsed profiles alone —
any two enumeration orders yielding the same profiles produce the same
catalog. -/
theorem c7_catalog_determinism_and_language_order
    (l l' : List LanguageConfig) (h : ∀ x, x ∈ l ↔ x ∈ l') :
    loadCatalog l = loadCatalog l' ∧
    (loadCatalog l).Sorted (· < ·) ∧
    ((loadCatalog l).map LanguageConfig.language).Sorted (· ≤ ·) ∧
    (loadCatalog l).Nodup ∧
    (∀ x, x ∈ loadCatalog l ↔ x ∈ l) := by
  refine ⟨?_, loadCatalog_sorted l, ?_, ?_, loadCatalog_mem l⟩
  · apply sorted_eq_of_mem_iff (loadCatalog_sorted l) (loadCatalog_sorted l')
    intro x
    rw [loadCatalog_mem, loadCatalog_mem]
    exact h x
  · rw [List.Sorted, List.pairwise_map]
    exact (loadCatalog_sorted l).imp (fun hab => LanguageConfig.lt_language_le hab)
  · exact List.Pairwise.imp ne_of_lt (loadCatalog_sorted l)

/-- C7 witness: the amended statement applied to two enumeration orders of
the same two concrete profiles; the loaded catalogs coincide and keep both
same-language entries, sorted. -/
theorem c7_catalog_determinism_witness :
    loadCatalog [⟨"rust", ["cargo"], [], []⟩, ⟨"go", [], [], []⟩] =
      loadCatalog [⟨"go", [], [], []⟩, ⟨"rust", ["cargo"], [], []⟩] ∧
    ((loadCatalog [⟨"rust", ["cargo"], [], []⟩, ⟨"go", [], [], []⟩]).map
      LanguageConfig.language).Sorted (· ≤ ·) := by
  have h := c7_catalog_determinism_and_language_order
    [⟨"rust", ["cargo"], [], []⟩, ⟨"go", [], [], []⟩]
    [⟨"go", [], [], []⟩, ⟨"rust", ["cargo"], [], []⟩]
    (by intro x; simp [List.mem_cons]; tauto)
  exact ⟨h.1, h.2.2.1⟩

/-! ## Lemmas for the parse-failure asymmetry -/

theorem parseDefaultsAux_error :
    ∀ (ds : List (Option LanguageConfig)) (acc : List LanguageConfig),
      none ∈ ds → parseDefaultsAux acc ds = .error .couldNotReadDefaultPlugins := by
  intro ds
  induction ds with
  | nil => intro acc h; simp at h
  | cons f rest ih =>
    intro acc h
    cases f with
    | none => rfl
    | some c =>
      have : none ∈ rest := by
        rcases List.mem_cons.mp h with h' | h'
        · exact absurd h' (by simp)
        · exact h'
      exact ih (btInsert c acc) this

theorem insertUserFiles_skips_failures :
    ∀ (us : List (Option LanguageConfig)) (acc : List LanguageConfig),
      insertUserFiles acc us = insertUserFiles acc ((us.filterMap id).map some) := by
  intro us
  induction us with
  | nil => intro acc; rfl
  | cons f rest ih =>
    intro acc
    cases f with
    | none =>
      show insertUserFiles acc rest =
        insertUserFiles acc ((rest.filterMap id).map some)
      exact ih acc
    | some c =>
      show insertUserFiles (btInsert c acc) rest =
        insertUserFiles (btInsert c acc) ((rest.filterMap id).map some)
      exact ih (btInsert c acc)

/-- C10. The parse-failure asymmetry of catalog loading: a bundled default
plugin that fails to parse aborts the whole load with
`CouldNotReadDefaultPlugins` no matter what the user directory holds,
while user-directory files that fail to parse are silently skipped — the
result is the same as if those files were absent. -/
theorem c10_parse_failure_asymmetry
    (defaults userFiles : List (Option LanguageConfig)) :
    (none ∈ defaults →
      parseLanguageConfigs defaults userFiles =
        .error .couldNotReadDefaultPlugins) ∧
    parseLanguageConfigs defaults userFiles =
      parseLanguageConfigs defaults ((userFiles.filterMap id).map some) := by
  constructor
  · intro h
    unfold parseLanguageConfigs parseDefaultLanguageConfigs
    rw [parseDefaultsAux_error defaults [] h]
  · unfold parseLanguageConfigs
    cases hd : parseDefaultLanguageConfigs defaults with
    | error e => rfl
    | ok base =>
      have hskip := insertUserFiles_skips_failures userFiles base
      simp [hskip]

/-- C10 witness: with one valid and one broken default plugin the load
fails regardless of a valid user file, and with valid defaults a broken
user file is skipped: the catalog equals the one loaded without it. -/
theorem c10_parse_failure_asymmetry_witness :
    parseLanguageConfigs [some ⟨"rust", [], [], []⟩, none]
      [some ⟨"go", [], [], []⟩] = .error .couldNotReadDefaultPlugins ∧
    parseLanguageConfigs [some ⟨"rust", [], [], []⟩]
      [none, some ⟨"go", [], [], []⟩] =
      parseLanguageConfigs [some ⟨"rust", [], [], []⟩]
        [some ⟨"go", [], [], []⟩] := by
  constructor
  · exact (c10_parse_failure_asymmetry [some ⟨"rust", [], [], []⟩, none]
      [some ⟨"go", [], [], []⟩]).1 (by simp)
  · exact (c10_parse_failure_asymmetry [some ⟨"rust", [], [], []⟩]
      [none, some ⟨"go", [], [], []⟩]).2

end Proman
